import Mathlib

/-
Verification of the screen-pop router core (screenpop_router.py) against its
natural-language specification.  The request-to-action pipeline is embedded
shallowly: the module-level mutable globals (_LAST_POP, _opcount, JOBQ, STATS,
STATE) become an explicit ServerState record threaded through the handlers,
timestamps (Python time.time floats) are modelled as rationals, and the
browser-launch subprocess calls are abstracted as an environment function that
either succeeds or raises with a description string.  Each definition mirrors
the corresponding Python function; source line references are given in the
doc comments.
-/

namespace Screenpop

/-- Dictionary lookup on an association list, mirroring Python dict.get:
the value of the first (and, for dict-shaped lists, only) entry whose key
matches. -/
def dictGet (k : String) : List (String × Rat) → Option Rat
  | [] => none
  | p :: t => if p.1 = k then some p.2 else dictGet k t

/-- Key-membership test on an association list, mirroring Python key-in-dict. -/
def hasKey (k : String) : List (String × Rat) → Bool
  | [] => false
  | p :: t => decide (p.1 = k) || hasKey k t

/-- Dictionary update mirroring Python dict assignment d[k] = v: overwrite in
place when the key is present, otherwise append a fresh entry. -/
def dictSet (k : String) (v : Rat) (l : List (String × Rat)) : List (String × Rat) :=
  if hasKey k l then l.map (fun p => if p.1 = k then (k, v) else p) else l ++ [(k, v)]

/-- Sweep period of the dedupe store (source line 71, _PRUNE_EVERY = 200). -/
def PRUNE_EVERY : Nat := 200

/-- Garbage-collection sweep of the dedupe store (_prune_dedupe, source lines
277-281): drop every entry whose timestamp is strictly below the cutoff
now - max(window, 1) * 10, keep the rest. -/
def prune_dedupe (now_ts window_s : Rat) (l : List (String × Rat)) : List (String × Rat) :=
  let cutoff := now_ts - max window_s 1 * 10
  l.filter (fun p => !decide (p.2 < cutoff))

/-- Snapshot of the process-wide mutable globals of the router: the dedupe
store _LAST_POP and _opcount (lines 69-72), the job queue contents JOBQ
(line 59), the STATS counters (lines 60-66) and the placement state
STATE first_window_done (line 57). -/
structure ServerState where
  lastPop : List (String × Rat)
  opcount : Nat
  jobq : List String
  enqueued : Nat
  processed : Nat
  failed : Nat
  suppressed : Nat
  last_error : String
  first_window_done : Bool
deriving DecidableEq

/-- The configuration fields of CONFIG (lines 42-53) that the core pipeline
reads.  dedupe_window_s is rational because should_suppress coerces it with
float(). -/
structure Config where
  mode : String
  allowlist : List String
  queue_max : Nat
  dedupe_window_s : Rat
deriving DecidableEq

/-- An HTTP response of the /open endpoint: status code plus the JSON body
fields that the handler may emit.  A field the branch does not emit is none. -/
structure HttpResponse where
  statusCode : Nat
  ok : Bool
  error : Option String := none
  statusField : Option String := none
  target : Option String := none
  modeField : Option String := none
  firstWindowDone : Option Bool := none
deriving DecidableEq

/-- Fall-through body of should_suppress (source lines 293-296): record now as
the last-seen timestamp for the url, bump the admission counter, and on every
PRUNE_EVERY-th admission run the sweep. -/
def admitPop (window now_ts : Rat) (url : String) (s : ServerState) : Bool × ServerState :=
  let lp := dictSet url now_ts s.lastPop
  let oc := s.opcount + 1
  let lp2 := if oc % PRUNE_EVERY = 0 then prune_dedupe now_ts window lp else lp
  (false, { s with lastPop := lp2, opcount := oc })

/-- Dedupe check (should_suppress, source lines 283-297).  The window
parameter models float(cfg_get(dedupe_window_s) or 0) and now_ts models
time.time(); the lock-protected block becomes one atomic state transition. -/
def should_suppress (window now_ts : Rat) (url : String) (s : ServerState) : Bool × ServerState :=
  if window ≤ 0 then (false, s)
  else
    match dictGet url s.lastPop with
    | some last => if now_ts - last < window then (true, s) else admitPop window now_ts url s
    | none => admitPop window now_ts url s

/-- Character-list test that pre is a leading segment of s, modelling Python
str.startswith at the character level. -/
def charListPre : List Char → List Char → Bool
  | [], _ => true
  | _ :: _, [] => false
  | p :: ps, c :: cs => if p = c then charListPre ps cs else false

/-- String version of the startswith test used by the ingress scheme check. -/
def strStarts (s pre : String) : Bool := charListPre pre.data s.data

/-- Membership of a character in a string, modelling the Python expression
of the form c in s. -/
def strContains (s : String) (c : Char) : Bool := s.data.contains c

/-- Whitespace strip at both ends, modelling str.strip() on the query
parameter (ASCII/unicode whitespace as classified by Char.isWhitespace). -/
def stripWs (s : String) : String :=
  ⟨(((s.data.dropWhile Char.isWhitespace).reverse).dropWhile Char.isWhitespace).reverse⟩

/-- Hex-digit test as accepted by percent escapes (0-9, a-f, A-F). -/
def isHexDigitChar (c : Char) : Bool :=
  c.isDigit || ('a' ≤ c && c ≤ 'f') || ('A' ≤ c && c ≤ 'F')

/-- Numeric value of a hex digit. -/
def hexVal (c : Char) : Nat :=
  if c.isDigit then c.toNat - 48
  else if 'a' ≤ c then c.toNat - 87
  else c.toNat - 55

/-- One percent-decode pass over a character list, modelling
urllib.parse.unquote at the byte level: a percent sign followed by two hex
digits becomes the encoded character; an invalid escape is kept literally. -/
def unquoteList : List Char → List Char
  | '%' :: a :: b :: rest =>
    if isHexDigitChar a && isHexDigitChar b then
      Char.ofNat (16 * hexVal a + hexVal b) :: unquoteList rest
    else
      '%' :: unquoteList (a :: b :: rest)
  | c :: rest => c :: unquoteList rest
  | [] => []

/-- One percent-decode pass on a string (urllib.parse.unquote). -/
def unquote (s : String) : String := ⟨unquoteList s.data⟩

/-- The ingress decode step of open_url (source lines 373-378): decode once,
and decode a second time exactly when the once-decoded value still contains a
percent sign.  The unquote model is total, so the except fallback of the
source is unreachable. -/
def ingressDecode (raw : String) : String :=
  let t := unquote raw
  if strContains t '%' then unquote t else t

/-- Characters that terminate the network-location part of a URL. -/
def hostChar (c : Char) : Bool := !(c == '/' || c == '?' || c == '#')

/-- Network location of an absolute http(s) URL: the characters after the
scheme separator up to the first slash, question mark or hash, as
urllib.parse.urlparse computes netloc for such URLs.  The pipeline only
applies this after the scheme check, so other schemes map to the empty
netloc. -/
def netlocChars (url : String) : List Char :=
  if strStarts url "http://" then (url.data.drop 7).takeWhile hostChar
  else if strStarts url "https://" then (url.data.drop 8).takeWhile hostChar
  else []

/-- Hostname of an absolute http(s) URL, modelling urlparse(url).hostname
followed by the or-empty-string coercion of allowed_host (source line 167):
strip the userinfo before the last at-sign, take the bracketed part for IPv6
literals and otherwise the part before the first colon, and lowercase. -/
def hostnameOf (url : String) : String :=
  let n := netlocChars url
  let hostinfo := (n.reverse.takeWhile (fun c => !(c == '@'))).reverse
  let h :=
    if hostinfo.contains '[' then
      ((hostinfo.dropWhile (fun c => !(c == '['))).drop 1).takeWhile (fun c => !(c == ']'))
    else hostinfo.takeWhile (fun c => !(c == ':'))
  ⟨h.map Char.toLower⟩

/-- Suffix test modelling Python str.endswith. -/
def endsWithStr (host sfx : String) : Bool := sfx.data.isSuffixOf host.data

/-- Allowlist check (allowed_host, source lines 162-170): an empty allowlist
allows every host, otherwise the hostname must end with one of the configured
suffixes. -/
def allowed_host (allow : List String) (url : String) : Bool :=
  if allow.isEmpty then true
  else allow.any (fun a => endsWithStr (hostnameOf url) a)

/-- The /open request handler (open_url, source lines 363-402).  uParam
models request.args.get of the parameter u (none when absent), now_ts models
time.time() as observed inside should_suppress, and the queue-full test
mirrors Queue.put_nowait raising Full exactly when the queue has a positive
bound and is at capacity. -/
def open_url (cfg : Config) (now_ts : Rat) (uParam : Option String) (s : ServerState) :
    HttpResponse × ServerState :=
  let raw := stripWs (uParam.getD "")
  if raw = "" then
    ({ statusCode := 400, ok := false, error := some "Missing query parameter u" }, s)
  else
    let target_url := ingressDecode raw
    if !(strStarts target_url "http://" || strStarts target_url "https://") then
      ({ statusCode := 400, ok := false, error := some "u must be an absolute http(s) URL" }, s)
    else if !allowed_host cfg.allowlist target_url then
      ({ statusCode := 403, ok := false, error := some "Host not allowed by allowlist" }, s)
    else
      let r := should_suppress cfg.dedupe_window_s now_ts target_url s
      if r.1 then
        ({ statusCode := 202, ok := true, statusField := some "suppressed",
           target := some target_url },
         { r.2 with suppressed := r.2.suppressed + 1 })
      else if 0 < cfg.queue_max ∧ cfg.queue_max ≤ r.2.jobq.length then
        ({ statusCode := 429, ok := false, error := some "Queue full. Try again shortly." }, r.2)
      else
        ({ statusCode := 202, ok := true, statusField := some "queued",
           target := some target_url, modeField := some cfg.mode,
           firstWindowDone := some r.2.first_window_done },
         { r.2 with jobq := r.2.jobq ++ [target_url], enqueued := r.2.enqueued + 1 })

/-- The two launcher actions the worker can invoke (launch_new_window and
launch_new_tab, source lines 209-274). -/
inductive LAct where
  | newWindow
  | newTab
deriving DecidableEq

/-- Processing of one dequeued job (process_job, source lines 300-317).  The
env argument abstracts the launcher call: ok when the launch returns, error e
when it raises an exception whose rendered description is e (the source
stores a string built from the exception type and message).  Exactly
one launch is invoked per job; an exception skips the rest of the try block,
so the first-window flag and the processed counter are only updated when the
launch returns normally. -/
def process_job (env : LAct → String → Except String Unit) (mode url : String)
    (s : ServerState) : ServerState × LAct :=
  if mode = "new-window" then
    match env LAct.newWindow url with
    | Except.ok _ => ({ s with processed := s.processed + 1 }, LAct.newWindow)
    | Except.error e => ({ s with failed := s.failed + 1, last_error := e }, LAct.newWindow)
  else if mode = "first-window-then-tabs" then
    if !s.first_window_done then
      match env LAct.newWindow url with
      | Except.ok _ =>
          ({ s with first_window_done := true, processed := s.processed + 1 }, LAct.newWindow)
      | Except.error e => ({ s with failed := s.failed + 1, last_error := e }, LAct.newWindow)
    else
      match env LAct.newTab url with
      | Except.ok _ => ({ s with processed := s.processed + 1 }, LAct.newTab)
      | Except.error e => ({ s with failed := s.failed + 1, last_error := e }, LAct.newTab)
  else
    match env LAct.newTab url with
    | Except.ok _ => ({ s with processed := s.processed + 1 }, LAct.newTab)
    | Except.error e => ({ s with failed := s.failed + 1, last_error := e }, LAct.newTab)

/-- The worker loop (worker_loop, source lines 319-325) run over a finite
prefix of the job stream: process each job in order, never stopping early. -/
def worker_run (env : LAct → String → Except String Unit) (mode : String) :
    List String → ServerState → ServerState
  | [], s => s
  | j :: rest, s => worker_run env mode rest (process_job env mode j s).1

/-- The external reset action of the tray menu (tray_reset_first, source
lines 421-422): set the first-window flag back to false. -/
def tray_reset_first (s : ServerState) : ServerState :=
  { s with first_window_done := false }

/-- The state of the globals at module initialization (source lines 56-72):
empty dedupe store, zero admission count, empty queue, zero counters, no last
error, first window not yet opened. -/
def initState : ServerState :=
  { lastPop := [], opcount := 0, jobq := [], enqueued := 0, processed := 0,
    failed := 0, suppressed := 0, last_error := "", first_window_done := false }

/-- The configuration defaults of CONFIG (source lines 42-53), restricted to
the fields the core reads. -/
def initConfig : Config :=
  { mode := "first-window-then-tabs", allowlist := [], queue_max := 128,
    dedupe_window_s := 10 }

/- ------------------------- helper lemmas ------------------------- -/

/-- Updating a key that is present yields that key bound to the new value. -/
theorem dictGet_map_set (k : String) (v : Rat) (l : List (String × Rat))
    (h : hasKey k l = true) :
    dictGet k (l.map (fun p => if p.1 = k then (k, v) else p)) = some v := by
  induction l with
  | nil => simp [hasKey] at h
  | cons p t ih =>
    by_cases hp : p.1 = k
    · simp [dictGet, hp]
    · have ht : hasKey k t = true := by simpa [hasKey, hp] using h
      simpa [dictGet, hp] using ih ht

/-- Lookup skips a segment that does not hold the key. -/
theorem dictGet_append_right (k : String) (l m : List (String × Rat))
    (h : hasKey k l = false) : dictGet k (l ++ m) = dictGet k m := by
  induction l with
  | nil => simp
  | cons p t ih =>
    have hp : ¬ p.1 = k := by
      intro hk
      simp [hasKey, hk] at h
    have ht : hasKey k t = false := by simpa [hasKey, hp] using h
    simpa [dictGet, hp] using ih ht

/-- After a dictionary update the updated key maps to the new value. -/
theorem dictGet_dictSet_self (k : String) (v : Rat) (l : List (String × Rat)) :
    dictGet k (dictSet k v l) = some v := by
  unfold dictSet
  by_cases h : hasKey k l
  · simp [h, dictGet_map_set k v l h]
  · simp [h, dictGet_append_right k l _ (by simpa using h), dictGet]

/-- A filter that keeps the entry found by a lookup preserves that lookup. -/
theorem dictGet_filter (k : String) (v : Rat) (p : String × Rat → Bool)
    (l : List (String × Rat)) (h : dictGet k l = some v) (hp : p (k, v) = true) :
    dictGet k (l.filter p) = some v := by
  induction l with
  | nil => simp [dictGet] at h
  | cons a t ih =>
    by_cases ha : a.1 = k
    · have hv : a.2 = v := by
        have := h
        simp [dictGet, ha] at this
        exact this
      have hav : a = (k, v) := by
        cases a
        simp_all
      subst hav
      simp [List.filter_cons, hp, dictGet]
    · have ht : dictGet k t = some v := by simpa [dictGet, ha] using h
      cases hpa : p a <;> simp [List.filter_cons, hpa, dictGet, ha, ih ht]

/-- The dedupe check only ever touches the lastPop map and the admission
counter: all other state components come through unchanged. -/
theorem should_suppress_snd (w n : Rat) (url : String) (s : ServerState) :
    ∃ lp oc, (should_suppress w n url s).2 = { s with lastPop := lp, opcount := oc } := by
  unfold should_suppress admitPop
  split
  · exact ⟨s.lastPop, s.opcount, rfl⟩
  · split
    · split
      · exact ⟨s.lastPop, s.opcount, rfl⟩
      · exact ⟨_, _, rfl⟩
    · exact ⟨_, _, rfl⟩

theorem should_suppress_jobq (w n : Rat) (url : String) (s : ServerState) :
    (should_suppress w n url s).2.jobq = s.jobq := by
  obtain ⟨lp, oc, h⟩ := should_suppress_snd w n url s
  rw [h]

theorem should_suppress_enqueued (w n : Rat) (url : String) (s : ServerState) :
    (should_suppress w n url s).2.enqueued = s.enqueued := by
  obtain ⟨lp, oc, h⟩ := should_suppress_snd w n url s
  rw [h]

theorem should_suppress_processed (w n : Rat) (url : String) (s : ServerState) :
    (should_suppress w n url s).2.processed = s.processed := by
  obtain ⟨lp, oc, h⟩ := should_suppress_snd w n url s
  rw [h]

theorem should_suppress_failed (w n : Rat) (url : String) (s : ServerState) :
    (should_suppress w n url s).2.failed = s.failed := by
  obtain ⟨lp, oc, h⟩ := should_suppress_snd w n url s
  rw [h]

theorem should_suppress_suppressed (w n : Rat) (url : String) (s : ServerState) :
    (should_suppress w n url s).2.suppressed = s.suppressed := by
  obtain ⟨lp, oc, h⟩ := should_suppress_snd w n url s
  rw [h]

theorem should_suppress_fwd (w n : Rat) (url : String) (s : ServerState) :
    (should_suppress w n url s).2.first_window_done = s.first_window_done := by
  obtain ⟨lp, oc, h⟩ := should_suppress_snd w n url s
  rw [h]

/-- A non-suppressing dedupe check with a positive window always runs the
admission body. -/
theorem should_suppress_false_eq (w n : Rat) (url : String) (s : ServerState)
    (hw : 0 < w) (hf : (should_suppress w n url s).1 = false) :
    should_suppress w n url s = admitPop w n url s := by
  unfold should_suppress at *
  rw [if_neg (not_le.mpr hw)] at *
  cases hd : dictGet url s.lastPop with
  | none => simp [hd]
  | some last =>
    simp only [hd] at hf ⊢
    split at hf
    · simp at hf
    · simp_all

/-- The admission body reports no suppression, records the current timestamp
for the url, and bumps the admission counter. -/
theorem admitPop_spec (w n : Rat) (url : String) (s : ServerState) :
    (admitPop w n url s).1 = false
    ∧ dictGet url (admitPop w n url s).2.lastPop = some n
    ∧ (admitPop w n url s).2.opcount = s.opcount + 1 := by
  unfold admitPop
  refine ⟨rfl, ?_, rfl⟩
  have hcut : n - max w 1 * 10 ≤ n := by
    have h1 : (1 : Rat) ≤ max w 1 := le_max_right _ _
    nlinarith
  have hkeep : (fun p : String × Rat => !decide (p.2 < n - max w 1 * 10)) (url, n) = true := by
    simp [not_lt.mpr hcut]
  dsimp only
  split
  · exact dictGet_filter url n _ _ (dictGet_dictSet_self url n s.lastPop) hkeep
  · exact dictGet_dictSet_self url n s.lastPop

/-- A non-suppressing check with a positive window runs exactly the admission
body of the dedupe store. -/
theorem should_suppress_admit_cases (w n : Rat) (url : String) (s : ServerState)
    (hw : 0 < w)
    (hcase : dictGet url s.lastPop = none ∨
      ∃ last, dictGet url s.lastPop = some last ∧ w ≤ n - last) :
    should_suppress w n url s = admitPop w n url s := by
  unfold should_suppress
  rw [if_neg (not_le.mpr hw)]
  rcases hcase with hnone | ⟨last, hl, hge⟩
  · simp [hnone]
  · simp [hl, not_lt.mpr hge]

/- ------------------------- claims ------------------------- -/

/-- Claim C3: the dedupe check returns false with no bookkeeping when the
window is not positive; returns true without touching any state when the url
has a last-seen timestamp within the window; and in every other case reports
no suppression and records the current time as the last-seen timestamp of
that url. -/
theorem c3_should_suppress_contract (window now_ts : Rat) (url : String) (s : ServerState) :
    (window ≤ 0 → should_suppress window now_ts url s = (false, s))
    ∧ (0 < window → ∀ last, dictGet url s.lastPop = some last → now_ts - last < window →
        should_suppress window now_ts url s = (true, s))
    ∧ (0 < window →
        (dictGet url s.lastPop = none ∨
          ∃ last, dictGet url s.lastPop = some last ∧ window ≤ now_ts - last) →
        (should_suppress window now_ts url s).1 = false
        ∧ dictGet url (should_suppress window now_ts url s).2.lastPop = some now_ts) := by
  refine ⟨?_, ?_, ?_⟩
  · intro h
    simp [should_suppress, h]
  · intro hw last hl hlt
    simp [should_suppress, not_le.mpr hw, hl, hlt]
  · intro hw hcase
    rw [should_suppress_admit_cases window now_ts url s hw hcase]
    exact ⟨(admitPop_spec _ _ _ _).1, (admitPop_spec _ _ _ _).2.1⟩

/-- Witness for C3 at concrete inputs: a disabled window, a fresh url under a
live window, and a repeat url inside the window. -/
theorem c3_should_suppress_contract_witness :
    should_suppress 0 100 "http://b/" initState = (false, initState)
    ∧ should_suppress 10 100 "http://b/"
        { initState with lastPop := [("http://b/", 95)] }
      = (true, { initState with lastPop := [("http://b/", 95)] })
    ∧ ((should_suppress 10 100 "http://b/" initState).1 = false
        ∧ dictGet "http://b/" (should_suppress 10 100 "http://b/" initState).2.lastPop
            = some 100) :=
  ⟨(c3_should_suppress_contract 0 100 "http://b/" initState).1 (by norm_num),
   (c3_should_suppress_contract 10 100 "http://b/" _).2.1 (by norm_num) 95
     (by decide) (by norm_num),
   (c3_should_suppress_contract 10 100 "http://b/" initState).2.2 (by norm_num)
     (Or.inl (by decide))⟩

/-- Claim C8 as amended: on every PRUNE_EVERY-th successful admission the
sweep retains exactly the entries of the updated store whose age is at most
10 times the maximum of the window and one second; on other admissions no
entry is dropped; the admission counter always advances by one. -/
theorem c8_prune_sweep (window now_ts : Rat) (url : String) (s : ServerState)
    (hw : 0 < window)
    (hfresh : dictGet url s.lastPop = none ∨
      ∃ last, dictGet url s.lastPop = some last ∧ window ≤ now_ts - last) :
    ((s.opcount + 1) % PRUNE_EVERY = 0 →
      ∀ u ts, (u, ts) ∈ dictSet url now_ts s.lastPop →
        ((u, ts) ∈ (should_suppress window now_ts url s).2.lastPop ↔
          now_ts - ts ≤ 10 * max window 1))
    ∧ ((s.opcount + 1) % PRUNE_EVERY ≠ 0 →
        (should_suppress window now_ts url s).2.lastPop = dictSet url now_ts s.lastPop)
    ∧ (should_suppress window now_ts url s).2.opcount = s.opcount + 1 := by
  rw [should_suppress_admit_cases window now_ts url s hw hfresh]
  unfold admitPop prune_dedupe
  dsimp only
  refine ⟨?_, ?_, rfl⟩
  · intro hmod u ts hmem
    rw [if_pos hmod]
    constructor
    · intro hin
      rcases List.mem_filter.mp hin with ⟨_, hcond⟩
      have hge : ¬ (ts < now_ts - max window 1 * 10) := by simpa using hcond
      have := not_lt.mp hge
      linarith
    · intro hle
      refine List.mem_filter.mpr ⟨hmem, ?_⟩
      have hge : ¬ (ts < now_ts - max window 1 * 10) := by linarith
      simpa using hge
  · intro hmod
    rw [if_neg hmod]

/-- Witness for C8 at a concrete sweep: a 200th admission with an entry of
age 7 under a 10-second window. -/
theorem c8_prune_sweep_witness :
    (("a", (93:Rat)) ∈ (should_suppress 10 100 "b"
        { initState with lastPop := [("a", 93)], opcount := 199 }).2.lastPop ↔
      (100:Rat) - 93 ≤ 10 * max 10 1) :=
  (c8_prune_sweep 10 100 "b" { initState with lastPop := [("a", 93)], opcount := 199 }
      (by norm_num) (Or.inl (by decide))).1 (by decide) "a" 93 (by decide)

/-- Counterexample to C8 as stated: with a half-second window the code prunes
at cutoff 10 seconds, not 10 times the window, so on a sweep an entry of age
7 seconds is retained although 7 exceeds 10 times the window.  A genuinely
stale entry of age 50 is dropped by the same sweep, showing the sweep ran. -/
theorem c8_claim_counterexample :
    ("a", (93:Rat)) ∈ (should_suppress (1/2) 100 "b"
        { initState with lastPop := [("a", 93), ("c", 50)], opcount := 199 }).2.lastPop
    ∧ ("c", (50:Rat)) ∉ (should_suppress (1/2) 100 "b"
        { initState with lastPop := [("a", 93), ("c", 50)], opcount := 199 }).2.lastPop
    ∧ 10 * ((1:Rat)/2) < 100 - 93
    ∧ (199 + 1) % PRUNE_EVERY = 0 := by
  simp +decide only [should_suppress, dictGet, admitPop, dictSet, hasKey, prune_dedupe,
    PRUNE_EVERY, initState]
  norm_num [List.mem_filter]

/-- Claim C1 as amended: a validated, non-suppressed request that finds the
queue full is rejected with the retryable 429 error, and the queue, every
counter and the placement state are unchanged; the dedupe store, however, has
already been mutated by the pre-enqueue suppression check whenever the window
is positive: the last-seen timestamp of the url is set to the current time
and the admission counter advances.  With the window disabled the whole state
is unchanged. -/
theorem c1_queue_full_rejection (cfg : Config) (now_ts : Rat) (u : String) (s : ServerState)
    (hraw : stripWs u ≠ "")
    (hscheme : (strStarts (ingressDecode (stripWs u)) "http://"
        || strStarts (ingressDecode (stripWs u)) "https://") = true)
    (hallow : allowed_host cfg.allowlist (ingressDecode (stripWs u)) = true)
    (hnosupp : (should_suppress cfg.dedupe_window_s now_ts (ingressDecode (stripWs u)) s).1
        = false)
    (hfull : 0 < cfg.queue_max ∧ cfg.queue_max ≤ s.jobq.length) :
    open_url cfg now_ts (some u) s
      = ({ statusCode := 429, ok := false, error := some "Queue full. Try again shortly." },
         (should_suppress cfg.dedupe_window_s now_ts (ingressDecode (stripWs u)) s).2)
    ∧ (should_suppress cfg.dedupe_window_s now_ts (ingressDecode (stripWs u)) s).2.jobq = s.jobq
    ∧ (should_suppress cfg.dedupe_window_s now_ts (ingressDecode (stripWs u)) s).2.enqueued
        = s.enqueued
    ∧ (should_suppress cfg.dedupe_window_s now_ts (ingressDecode (stripWs u)) s).2.processed
        = s.processed
    ∧ (should_suppress cfg.dedupe_window_s now_ts (ingressDecode (stripWs u)) s).2.failed
        = s.failed
    ∧ (should_suppress cfg.dedupe_window_s now_ts (ingressDecode (stripWs u)) s).2.suppressed
        = s.suppressed
    ∧ (should_suppress cfg.dedupe_window_s now_ts (ingressDecode (stripWs u)) s).2.first_window_done
        = s.first_window_done
    ∧ (0 < cfg.dedupe_window_s →
        dictGet (ingressDecode (stripWs u))
          (should_suppress cfg.dedupe_window_s now_ts (ingressDecode (stripWs u)) s).2.lastPop
          = some now_ts
        ∧ (should_suppress cfg.dedupe_window_s now_ts (ingressDecode (stripWs u)) s).2.opcount
            = s.opcount + 1)
    ∧ (cfg.dedupe_window_s ≤ 0 →
        (should_suppress cfg.dedupe_window_s now_ts (ingressDecode (stripWs u)) s).2 = s) := by
  have hopen : open_url cfg now_ts (some u) s
      = ({ statusCode := 429, ok := false, error := some "Queue full. Try again shortly." },
         (should_suppress cfg.dedupe_window_s now_ts (ingressDecode (stripWs u)) s).2) := by
    unfold open_url
    simp only [Option.getD, hscheme, hallow, hnosupp, Bool.not_true, if_neg hraw,
      Bool.false_eq_true, if_false]
    rw [if_pos ⟨hfull.1, by rw [should_suppress_jobq]; exact hfull.2⟩]
  refine ⟨hopen, should_suppress_jobq _ _ _ _, should_suppress_enqueued _ _ _ _,
    should_suppress_processed _ _ _ _, should_suppress_failed _ _ _ _,
    should_suppress_suppressed _ _ _ _, should_suppress_fwd _ _ _ _, ?_, ?_⟩
  · intro hwpos
    rw [should_suppress_false_eq _ _ _ _ hwpos hnosupp]
    exact ⟨(admitPop_spec _ _ _ _).2.1, (admitPop_spec _ _ _ _).2.2⟩
  · intro hw0
    unfold should_suppress
    rw [if_pos hw0]

/-- Witness for C1 at a concrete request: queue bound 1 with one queued job,
window 10, fresh url. -/
theorem c1_queue_full_rejection_witness :
    (open_url { initConfig with queue_max := 1 } 100 (some "http://b/")
        { initState with jobq := ["http://x/"] }).1.statusCode = 429
    ∧ dictGet (ingressDecode (stripWs "http://b/"))
        (should_suppress ({ initConfig with queue_max := 1 } : Config).dedupe_window_s 100
          (ingressDecode (stripWs "http://b/"))
          { initState with jobq := ["http://x/"] }).2.lastPop = some 100 := by
  have h := c1_queue_full_rejection { initConfig with queue_max := 1 } 100 "http://b/"
    { initState with jobq := ["http://x/"] } (by decide) (by decide) (by decide) (by decide)
    ⟨by decide, by decide⟩
  exact ⟨by rw [h.1], (h.2.2.2.2.2.2.2.1 (by decide)).1⟩

/-- Counterexample to C1 as stated: on this queue-full rejection the dedupe
store is mutated, gaining a last-seen timestamp for the url that was absent
before. -/
theorem c1_claim_counterexample :
    (open_url { initConfig with queue_max := 1 } 100 (some "http://c/")
        { initState with jobq := ["http://x/"] }).1.statusCode = 429
    ∧ dictGet "http://c/" ({ initState with jobq := ["http://x/"] } : ServerState).lastPop
        = none
    ∧ dictGet "http://c/"
        (open_url { initConfig with queue_max := 1 } 100 (some "http://c/")
          { initState with jobq := ["http://x/"] }).2.lastPop = some 100
    ∧ (open_url { initConfig with queue_max := 1 } 100 (some "http://c/")
        { initState with jobq := ["http://x/"] }).2.opcount
        = ({ initState with jobq := ["http://x/"] } : ServerState).opcount + 1 := by
  decide

/-- Claim C4 as amended: every /open response is either a 202 success whose
body carries ok true, a status of queued or suppressed, and the target, where
a queued body additionally carries the placement mode and the first-window
flag while a suppressed body carries neither of those two fields; or a 400,
403 or 429 failure whose body carries ok false and an error string and no
status field. -/
theorem c4_open_response_contract (cfg : Config) (now_ts : Rat) (uParam : Option String)
    (s : ServerState) (resp : HttpResponse) (s2 : ServerState)
    (h : open_url cfg now_ts uParam s = (resp, s2)) :
    (resp.statusCode = 202 ∧ resp.ok = true ∧ resp.target ≠ none
      ∧ ((resp.statusField = some "queued" ∧ resp.modeField = some cfg.mode
            ∧ resp.firstWindowDone = some s2.first_window_done)
         ∨ (resp.statusField = some "suppressed" ∧ resp.modeField = none
            ∧ resp.firstWindowDone = none)))
    ∨ ((resp.statusCode = 400 ∨ resp.statusCode = 403 ∨ resp.statusCode = 429)
        ∧ resp.ok = false ∧ resp.error ≠ none ∧ resp.statusField = none) := by
  unfold open_url at h
  dsimp only at h
  split at h
  · have hresp : resp = { statusCode := 400, ok := false, error := some "Missing query parameter u" } := (congrArg Prod.fst h).symm
    subst hresp
    right
    simp
  · split at h
    · have hresp : resp = { statusCode := 400, ok := false, error := some "u must be an absolute http(s) URL" } := (congrArg Prod.fst h).symm
      subst hresp
      right
      simp
    · split at h
      · have hresp : resp = { statusCode := 403, ok := false, error := some "Host not allowed by allowlist" } := (congrArg Prod.fst h).symm
        subst hresp
        right
        simp
      · split at h
        · have hresp : resp = { statusCode := 202, ok := true, statusField := some "suppressed", target := some (ingressDecode (stripWs (uParam.getD ""))) } := (congrArg Prod.fst h).symm
          subst hresp
          left
          simp
        · split at h
          · have hresp : resp = { statusCode := 429, ok := false, error := some "Queue full. Try again shortly." } := (congrArg Prod.fst h).symm
            subst hresp
            right
            simp
          · have hs2 : s2 = _ := (congrArg Prod.snd h).symm
            have hresp : resp = { statusCode := 202, ok := true, statusField := some "queued", target := some (ingressDecode (stripWs (uParam.getD ""))), modeField := some cfg.mode, firstWindowDone := some (should_suppress cfg.dedupe_window_s now_ts (ingressDecode (stripWs (uParam.getD ""))) s).2.first_window_done } := (congrArg Prod.fst h).symm
            subst hresp
            left
            refine ⟨rfl, rfl, by simp, Or.inl ⟨rfl, rfl, ?_⟩⟩
            rw [hs2]

/-- Witness for C4 at a concrete queued request on the initial state. -/
theorem c4_open_response_contract_witness :
    let respW : HttpResponse := { statusCode := 202, ok := true, statusField := some "queued", target := some "http://b/", modeField := some "first-window-then-tabs", firstWindowDone := some false }
    let s2W : ServerState := { lastPop := [("http://b/", 100)], opcount := 1, jobq := ["http://b/"], enqueued := 1, processed := 0, failed := 0, suppressed := 0, last_error := "", first_window_done := false }
    (respW.statusCode = 202 ∧ respW.ok = true ∧ respW.target ≠ none
      ∧ ((respW.statusField = some "queued" ∧ respW.modeField = some initConfig.mode
            ∧ respW.firstWindowDone = some s2W.first_window_done)
         ∨ (respW.statusField = some "suppressed" ∧ respW.modeField = none
            ∧ respW.firstWindowDone = none)))
    ∨ ((respW.statusCode = 400 ∨ respW.statusCode = 403 ∨ respW.statusCode = 429)
        ∧ respW.ok = false ∧ respW.error ≠ none ∧ respW.statusField = none) :=
  c4_open_response_contract initConfig 100 (some "http://b/") initState _ _ (by decide)

/-- Claim C5: ingress validation applies in order missing-parameter, scheme,
allowlist, each failing with the stated status and error string and leaving
the whole server state untouched; an empty allowlist admits every host and a
non-empty one admits exactly the hosts ending in a configured suffix. -/
theorem c5_ingress_validation_order (cfg : Config) (now_ts : Rat) (uParam : Option String)
    (s : ServerState) :
    (stripWs (uParam.getD "") = "" →
      open_url cfg now_ts uParam s =
        ({ statusCode := 400, ok := false, error := some "Missing query parameter u" }, s))
    ∧ (stripWs (uParam.getD "") ≠ "" →
        strStarts (ingressDecode (stripWs (uParam.getD ""))) "http://" = false →
        strStarts (ingressDecode (stripWs (uParam.getD ""))) "https://" = false →
        open_url cfg now_ts uParam s =
          ({ statusCode := 400, ok := false,
             error := some "u must be an absolute http(s) URL" }, s))
    ∧ (stripWs (uParam.getD "") ≠ "" →
        (strStarts (ingressDecode (stripWs (uParam.getD ""))) "http://"
          || strStarts (ingressDecode (stripWs (uParam.getD ""))) "https://") = true →
        allowed_host cfg.allowlist (ingressDecode (stripWs (uParam.getD ""))) = false →
        open_url cfg now_ts uParam s =
          ({ statusCode := 403, ok := false,
             error := some "Host not allowed by allowlist" }, s))
    ∧ (∀ u2 : String, allowed_host [] u2 = true)
    ∧ (∀ allow : List String, ∀ u2 : String, allow ≠ [] →
        (allowed_host allow u2 = true ↔ ∃ a ∈ allow, endsWithStr (hostnameOf u2) a = true)) := by
  refine ⟨?_, ?_, ?_, ?_, ?_⟩
  · intro hempty
    unfold open_url
    dsimp only
    rw [if_pos hempty]
  · intro hne h1 h2
    unfold open_url
    dsimp only
    rw [if_neg hne]
    simp only [h1, h2, Bool.or_self, Bool.not_false]
    rw [if_pos trivial]
  · intro hne hs ha
    unfold open_url
    dsimp only
    rw [if_neg hne]
    simp only [hs, ha, Bool.not_true, Bool.not_false, Bool.false_eq_true, if_false]
    rw [if_pos trivial]
  · intro u2
    simp [allowed_host]
  · intro allow u2 hne
    simp [allowed_host, List.isEmpty_iff, hne, List.any_eq_true]

/-- Witness for C5: a missing parameter, a non-http scheme, and a host off
the allowlist, each at concrete inputs. -/
theorem c5_ingress_validation_order_witness :
    open_url initConfig 0 none initState
      = ({ statusCode := 400, ok := false, error := some "Missing query parameter u" },
         initState)
    ∧ open_url initConfig 0 (some "ftp://x/") initState
      = ({ statusCode := 400, ok := false,
           error := some "u must be an absolute http(s) URL" }, initState)
    ∧ open_url { initConfig with allowlist := ["example.com"] } 0
        (some "https://evil.test/phish") initState
      = ({ statusCode := 403, ok := false,
           error := some "Host not allowed by allowlist" }, initState) :=
  ⟨(c5_ingress_validation_order initConfig 0 none initState).1 (by decide),
   (c5_ingress_validation_order initConfig 0 (some "ftp://x/") initState).2.1
     (by decide) (by decide) (by decide),
   (c5_ingress_validation_order { initConfig with allowlist := ["example.com"] } 0
     (some "https://evil.test/phish") initState).2.2.1 (by decide) (by decide) (by decide)⟩

/-- Counterexample to C4 as stated: a suppressed 202 success whose body lacks
both the placement mode and the first-window flag, although the claim says
every success body contains them. -/
theorem c4_claim_counterexample :
    (open_url initConfig 100 (some "http://a/")
        { initState with lastPop := [("http://a/", 99)] }).1.statusCode = 202
    ∧ (open_url initConfig 100 (some "http://a/")
        { initState with lastPop := [("http://a/", 99)] }).1.ok = true
    ∧ (open_url initConfig 100 (some "http://a/")
        { initState with lastPop := [("http://a/", 99)] }).1.statusField = some "suppressed"
    ∧ (open_url initConfig 100 (some "http://a/")
        { initState with lastPop := [("http://a/", 99)] }).1.modeField = none
    ∧ (open_url initConfig 100 (some "http://a/")
        { initState with lastPop := [("http://a/", 99)] }).1.firstWindowDone = none := by
  have h0 : ingressDecode (stripWs "http://a/") = "http://a/" := by decide
  have h1 : should_suppress initConfig.dedupe_window_s 100 "http://a/"
      { initState with lastPop := [("http://a/", 99)] }
      = (true, { initState with lastPop := [("http://a/", 99)] }) := by
    norm_num [should_suppress, dictGet, initConfig, initState]
  unfold open_url
  dsimp only
  simp only [Option.getD, h0, h1]
  rw [if_neg (by decide : ¬ (stripWs "http://a/" = ""))]
  rw [if_neg (by decide : ¬ ((!(strStarts "http://a/" "http://"
    || strStarts "http://a/" "https://")) = true))]
  rw [if_neg (by decide : ¬ ((!allowed_host initConfig.allowlist "http://a/") = true))]
  simp

/-- Every processed job accounts for exactly one of the processed or failed
counters. -/
theorem process_job_counts (env : LAct → String → Except String Unit) (mode url : String)
    (s : ServerState) :
    (process_job env mode url s).1.processed + (process_job env mode url s).1.failed
      = s.processed + s.failed + 1 := by
  unfold process_job
  repeat' split
  all_goals simp
  all_goals omega

/-- The worker loop accounts every job exactly once, whatever mix of
successes and failures the launcher produces. -/
theorem worker_run_counts (env : LAct → String → Except String Unit) (mode : String)
    (jobs : List String) : ∀ s0 : ServerState,
    (worker_run env mode jobs s0).processed + (worker_run env mode jobs s0).failed
      = s0.processed + s0.failed + jobs.length := by
  induction jobs with
  | nil => intro s0; simp [worker_run]
  | cons j rest ih =>
    intro s0
    rw [worker_run]
    have h := process_job_counts env mode j s0
    have h2 := ih (process_job env mode j s0).1
    simp only [List.length_cons] at *
    omega

/-- Claim C2: the placement state machine of process_job.  Under policy
first-window-then-tabs a job in state NoWindowYet invokes the new-window
launch and, when that launch returns normally, moves the state to WindowOpen;
a job in state WindowOpen invokes the new-tab launch and leaves the state
set; policies new-window and new-tab always invoke their launch and never
touch the state; once true the flag survives every job under every policy
and every launcher outcome, and only the external tray reset clears it. -/
theorem c2_placement_state_machine (env : LAct → String → Except String Unit) (url : String)
    (s : ServerState) :
    (s.first_window_done = false → env LAct.newWindow url = Except.ok () →
        (process_job env "first-window-then-tabs" url s).2 = LAct.newWindow
        ∧ (process_job env "first-window-then-tabs" url s).1.first_window_done = true)
    ∧ (s.first_window_done = true →
        (process_job env "first-window-then-tabs" url s).2 = LAct.newTab
        ∧ (process_job env "first-window-then-tabs" url s).1.first_window_done = true)
    ∧ (process_job env "new-window" url s).2 = LAct.newWindow
    ∧ (process_job env "new-window" url s).1.first_window_done = s.first_window_done
    ∧ (process_job env "new-tab" url s).2 = LAct.newTab
    ∧ (process_job env "new-tab" url s).1.first_window_done = s.first_window_done
    ∧ (∀ mode : String, s.first_window_done = true →
        (process_job env mode url s).1.first_window_done = true)
    ∧ (tray_reset_first s).first_window_done = false := by
  refine ⟨?_, ?_, ?_, ?_, ?_, ?_, ?_, rfl⟩
  · intro hf hok
    simp [process_job, hf, hok]
  · intro ht
    cases henv : env LAct.newTab url <;> simp [process_job, ht, henv]
  · cases henv : env LAct.newWindow url <;> simp [process_job, henv]
  · cases henv : env LAct.newWindow url <;> simp [process_job, henv]
  · cases henv : env LAct.newTab url <;> simp [process_job, henv]
  · cases henv : env LAct.newTab url <;> simp [process_job, henv]
  · intro mode ht
    unfold process_job
    repeat' split
    all_goals simp [ht]

/-- Witness for C2: a first job on the initial state with a launcher that
succeeds opens the window and flips the flag. -/
theorem c2_placement_state_machine_witness :
    (process_job (fun _ _ => Except.ok ()) "first-window-then-tabs" "http://b/" initState).2
        = LAct.newWindow
    ∧ (process_job (fun _ _ => Except.ok ()) "first-window-then-tabs" "http://b/"
        initState).1.first_window_done = true :=
  (c2_placement_state_machine (fun _ _ => Except.ok ()) "http://b/" initState).1 rfl rfl

/-- Claim C6: an exception raised by the launcher while processing a job is
caught: the failure counter advances by one, the description is stored as the
last error, the processed counter and the queue are untouched, the worker
accounts every job of the stream exactly once whatever the launcher does, and
the loop simply continues with the remaining jobs after a failure. -/
theorem c6_launcher_failure_handling (env : LAct → String → Except String Unit)
    (mode url e : String) (s : ServerState)
    (herr : env (process_job env mode url s).2 url = Except.error e) :
    (process_job env mode url s).1.failed = s.failed + 1
    ∧ (process_job env mode url s).1.last_error = e
    ∧ (process_job env mode url s).1.processed = s.processed
    ∧ (process_job env mode url s).1.jobq = s.jobq
    ∧ (∀ jobs : List String, ∀ s0 : ServerState,
        (worker_run env mode jobs s0).processed + (worker_run env mode jobs s0).failed
          = s0.processed + s0.failed + jobs.length)
    ∧ (∀ j : String, ∀ rest : List String, ∀ s0 : ServerState,
        worker_run env mode (j :: rest) s0
          = worker_run env mode rest (process_job env mode j s0).1) := by
  refine ⟨?_, ?_, ?_, ?_, fun jobs s0 => worker_run_counts env mode jobs s0,
    fun j rest s0 => rfl⟩ <;>
  · by_cases h1 : mode = "new-window"
    · subst h1
      cases henv : env LAct.newWindow url with
      | ok _ => simp [process_job, henv] at herr
      | error e2 =>
        simp [process_job, henv] at herr
        simp [process_job, henv, herr]
    · by_cases h2 : mode = "first-window-then-tabs"
      · subst h2
        by_cases hf : s.first_window_done
        · cases henv : env LAct.newTab url with
          | ok _ => simp [process_job, hf, henv] at herr
          | error e2 =>
            simp [process_job, hf, henv] at herr
            simp [process_job, hf, henv, herr]
        · cases henv : env LAct.newWindow url with
          | ok _ => simp [process_job, hf, henv] at herr
          | error e2 =>
            simp [process_job, hf, henv] at herr
            simp [process_job, hf, henv, herr]
      · cases henv : env LAct.newTab url with
        | ok _ => simp [process_job, h1, h2, henv] at herr
        | error e2 =>
          simp [process_job, h1, h2, henv] at herr
          simp [process_job, h1, h2, henv, herr]

/-- Witness for C6: a launcher that always raises, under policy new-tab on
the initial state. -/
theorem c6_launcher_failure_handling_witness :
    (process_job (fun _ _ => Except.error "OSError: spawn failed") "new-tab" "http://b/"
        initState).1.failed = initState.failed + 1
    ∧ (process_job (fun _ _ => Except.error "OSError: spawn failed") "new-tab" "http://b/"
        initState).1.last_error = "OSError: spawn failed" :=
  ⟨(c6_launcher_failure_handling (fun _ _ => Except.error "OSError: spawn failed") "new-tab"
      "http://b/" "OSError: spawn failed" initState rfl).1,
   (c6_launcher_failure_handling (fun _ _ => Except.error "OSError: spawn failed") "new-tab"
      "http://b/" "OSError: spawn failed" initState rfl).2.1⟩

/-- Claim C10: under first-window-then-tabs the transition to WindowOpen
happens only after the new-window launch returns without raising: on a raise
the flag stays false and the next processed job again attempts a new-window
launch. -/
theorem c10_first_window_retry_on_failure (env : LAct → String → Except String Unit)
    (url e : String) (s : ServerState)
    (hf : s.first_window_done = false)
    (herr : env LAct.newWindow url = Except.error e) :
    (process_job env "first-window-then-tabs" url s).2 = LAct.newWindow
    ∧ (process_job env "first-window-then-tabs" url s).1.first_window_done = false
    ∧ (∀ env2 : LAct → String → Except String Unit, ∀ url2 : String,
        (process_job env2 "first-window-then-tabs" url2
          (process_job env "first-window-then-tabs" url s).1).2 = LAct.newWindow) := by
  have hpj : process_job env "first-window-then-tabs" url s
      = ({ s with failed := s.failed + 1, last_error := e }, LAct.newWindow) := by
    simp [process_job, hf, herr]
  refine ⟨by rw [hpj], by rw [hpj]; exact hf, ?_⟩
  intro env2 url2
  rw [hpj]
  cases henv2 : env2 LAct.newWindow url2 <;> simp [process_job, hf, henv2]

/-- Witness for C10: a launcher whose new-window action raises on the
initial state. -/
theorem c10_first_window_retry_on_failure_witness :
    (process_job (fun a _ => match a with
        | LAct.newWindow => Except.error "FileNotFoundError: no browser"
        | LAct.newTab => Except.ok ()) "first-window-then-tabs" "http://b/" initState).2
      = LAct.newWindow
    ∧ (process_job (fun a _ => match a with
        | LAct.newWindow => Except.error "FileNotFoundError: no browser"
        | LAct.newTab => Except.ok ()) "first-window-then-tabs" "http://b/"
        initState).1.first_window_done = false :=
  ⟨(c10_first_window_retry_on_failure (fun a _ => match a with
      | LAct.newWindow => Except.error "FileNotFoundError: no browser"
      | LAct.newTab => Except.ok ()) "http://b/" "FileNotFoundError: no browser"
      initState rfl rfl).1,
   (c10_first_window_retry_on_failure (fun a _ => match a with
      | LAct.newWindow => Except.error "FileNotFoundError: no browser"
      | LAct.newTab => Except.ok ()) "http://b/" "FileNotFoundError: no browser"
      initState rfl rfl).2.1⟩

/-- Rebuilding a string from its character data is the identity. -/
theorem strMk_data (s : String) : String.mk s.data = s := rfl

/-- A decode pass over a list without a percent sign changes nothing. -/
theorem unquoteList_id_of_no_pct (cs : List Char) (h : cs.contains '%' = false) :
    unquoteList cs = cs := by
  induction cs using unquoteList.induct with
  | case1 a b rest hhex => simp at h
  | case2 a b rest hhex ih => simp at h
  | case3 c rest hne ih =>
    simp at h
    have hrest : rest.contains '%' = false := by simpa using h.2
    rw [unquoteList.eq_def]
    split <;> simp_all
  | case4 => rfl

/-- A decode pass over a string without a percent sign is the identity. -/
theorem unquote_id_of_no_pct (t : String) (h : strContains t '%' = false) :
    unquote t = t := by
  unfold unquote
  rw [unquoteList_id_of_no_pct t.data h]

/-- Claim C7: ingress decodes exactly once, runs exactly one extra pass when
and only when the once-decoded value still contains a percent sign (a pass on
a value without one is the identity, so the extra pass matters exactly then),
never decodes a third time, and on a concrete triply-encoded input stops
after two passes, one decode short of the fully decoded value. -/
theorem c7_percent_decode_twice (raw : String) :
    (ingressDecode raw = unquote raw ∨ ingressDecode raw = unquote (unquote raw))
    ∧ (strContains (unquote raw) '%' = true →
        ingressDecode raw = unquote (unquote raw))
    ∧ (strContains (unquote raw) '%' = false →
        ingressDecode raw = unquote raw ∧ unquote (unquote raw) = unquote raw)
    ∧ ingressDecode "a%252520b" = "a%20b" ∧ unquote "a%20b" = "a b" := by
  refine ⟨?_, ?_, ?_, by decide, by decide⟩
  · unfold ingressDecode
    dsimp only
    split
    · exact Or.inr rfl
    · exact Or.inl rfl
  · intro h
    unfold ingressDecode
    dsimp only
    rw [if_pos h]
  · intro h
    unfold ingressDecode
    dsimp only
    rw [if_neg (by simp [h])]
    exact ⟨rfl, unquote_id_of_no_pct _ h⟩

/-- Witness for C7: the doubly-escaped input still holds a percent sign after
one pass, so the second pass runs. -/
theorem c7_percent_decode_twice_witness :
    ingressDecode "a%252520b" = unquote (unquote "a%252520b") :=
  (c7_percent_decode_twice "a%252520b").2.1 (by decide)

/-- A list is a character-level leading segment of itself extended by any
tail. -/
theorem charListPre_append (l m : List Char) : charListPre l (l ++ m) = true := by
  induction l with
  | nil => rfl
  | cons c t ih => simpa [charListPre] using ih

/-- takeWhile over a satisfying segment followed by a failing character
returns exactly the segment. -/
theorem takeWhile_append_stop (p : Char → Bool) (l1 : List Char) (c : Char) (l2 : List Char)
    (h1 : ∀ x ∈ l1, p x = true) (hc : p c = false) :
    (l1 ++ c :: l2).takeWhile p = l1 := by
  induction l1 with
  | nil => simp [List.takeWhile_cons, hc]
  | cons a t ih =>
    have ha : p a = true := h1 a (List.mem_cons_self a t)
    simp [List.takeWhile_cons, ha, ih (fun x hx => h1 x (List.mem_cons_of_mem a hx))]

/-- The network location of an http URL built from a clean host is that
host, whatever follows the first slash. -/
theorem netlocChars_http (h rest : String) (hh : h.data.all hostChar = true) :
    netlocChars ("http://" ++ h ++ "/" ++ rest) = h.data := by
  have hdata : ("http://" ++ h ++ "/" ++ rest).data
      = ['h','t','t','p',':','/','/'] ++ (h.data ++ '/' :: rest.data) := by
    simp [String.data_append]
  unfold netlocChars strStarts
  rw [hdata]
  rw [show ("http://".data) = ['h','t','t','p',':','/','/'] from rfl]
  rw [charListPre_append]
  rw [if_pos rfl]
  simp only [List.cons_append, List.nil_append, List.drop_succ_cons, List.drop_zero]
  exact takeWhile_append_stop hostChar h.data '/' rest.data
    (fun x hx => by exact List.all_eq_true.mp hh x hx) (by decide)

/-- The network location of an https URL built from a clean host is that
host, whatever follows the first slash. -/
theorem netlocChars_https (h rest : String) (hh : h.data.all hostChar = true) :
    netlocChars ("https://" ++ h ++ "/" ++ rest) = h.data := by
  have hdata : ("https://" ++ h ++ "/" ++ rest).data
      = ['h','t','t','p','s',':','/','/'] ++ (h.data ++ '/' :: rest.data) := by
    simp [String.data_append]
  unfold netlocChars strStarts
  rw [hdata]
  rw [show ("http://".data) = ['h','t','t','p',':','/','/'] from rfl]
  rw [show ("https://".data) = ['h','t','t','p','s',':','/','/'] from rfl]
  rw [show charListPre ['h','t','t','p',':','/','/']
      (['h','t','t','p','s',':','/','/'] ++ (h.data ++ '/' :: rest.data)) = false from by
    simp [charListPre]]
  rw [if_neg (by simp)]
  rw [charListPre_append]
  rw [if_pos rfl]
  simp only [List.cons_append, List.nil_append, List.drop_succ_cons, List.drop_zero]
  exact takeWhile_append_stop hostChar h.data '/' rest.data
    (fun x hx => by exact List.all_eq_true.mp hh x hx) (by decide)

/-- The hostname only depends on the URL through its network location. -/
theorem hostnameOf_congr (u1 u2 : String) (h : netlocChars u1 = netlocChars u2) :
    hostnameOf u1 = hostnameOf u2 := by
  unfold hostnameOf
  rw [h]

/-- The allowlist check only depends on the URL through its hostname. -/
theorem allowed_host_congr (allow : List String) (u1 u2 : String)
    (h : hostnameOf u1 = hostnameOf u2) :
    allowed_host allow u1 = allowed_host allow u2 := by
  unfold allowed_host
  rw [h]

/-- Claim C9: the allowlist check depends only on the hostname: two URLs
with the same hostname get the same verdict, and for http or https URLs
built from a fixed clean host the verdict is the same whatever path and
query string follow. -/
theorem c9_allowlist_hostname_only (allow : List String) :
    (∀ u1 u2 : String, hostnameOf u1 = hostnameOf u2 →
        allowed_host allow u1 = allowed_host allow u2)
    ∧ (∀ h p q : String, h.data.all hostChar = true →
        hostnameOf ("http://" ++ h ++ "/" ++ p) = hostnameOf ("http://" ++ h ++ "/" ++ q)
        ∧ allowed_host allow ("http://" ++ h ++ "/" ++ p)
            = allowed_host allow ("http://" ++ h ++ "/" ++ q))
    ∧ (∀ h p q : String, h.data.all hostChar = true →
        hostnameOf ("https://" ++ h ++ "/" ++ p) = hostnameOf ("https://" ++ h ++ "/" ++ q)
        ∧ allowed_host allow ("https://" ++ h ++ "/" ++ p)
            = allowed_host allow ("https://" ++ h ++ "/" ++ q)) := by
  refine ⟨fun u1 u2 h => allowed_host_congr allow u1 u2 h, ?_, ?_⟩
  · intro h p q hh
    have e : netlocChars ("http://" ++ h ++ "/" ++ p)
        = netlocChars ("http://" ++ h ++ "/" ++ q) := by
      rw [netlocChars_http h p hh, netlocChars_http h q hh]
    exact ⟨hostnameOf_congr _ _ e, allowed_host_congr allow _ _ (hostnameOf_congr _ _ e)⟩
  · intro h p q hh
    have e : netlocChars ("https://" ++ h ++ "/" ++ p)
        = netlocChars ("https://" ++ h ++ "/" ++ q) := by
      rw [netlocChars_https h p hh, netlocChars_https h q hh]
    exact ⟨hostnameOf_congr _ _ e, allowed_host_congr allow _ _ (hostnameOf_congr _ _ e)⟩

/-- Witness for C9 at a concrete host and two different path-query suffixes
under a concrete allowlist. -/
theorem c9_allowlist_hostname_only_witness :
    hostnameOf ("http://" ++ "crm.example.com" ++ "/" ++ "case/1?x=2")
      = hostnameOf ("http://" ++ "crm.example.com" ++ "/" ++ "other?y=3")
    ∧ allowed_host ["example.com"] ("http://" ++ "crm.example.com" ++ "/" ++ "case/1?x=2")
      = allowed_host ["example.com"] ("http://" ++ "crm.example.com" ++ "/" ++ "other?y=3") :=
  (c9_allowlist_hostname_only ["example.com"]).2.1 "crm.example.com" "case/1?x=2" "other?y=3"
    (by decide)

end Screenpop
